import Mathlib

/-!
Verification of the tokenserver request handler (`src/tokenserver/handlers.rs`).

Modelling conventions:
* Rust byte strings (`&[u8]`, `Vec<u8>`) and Rust strings (`String`, `&str`,
  which are UTF-8 byte sequences) are both modelled as `List Nat`, each element
  a byte value below 256.  Functions that consume bytes reduce their inputs
  modulo 256, matching the `u8` type of the source.
* Fallible Rust functions returning `Result<T, Error>` are modelled as
  `Except String T`.
* The HMAC-SHA256 primitive used via the `hmac`/`sha2` crates is embedded
  executably from FIPS 180-4 / FIPS 198-1, the standards those crates
  implement.
-/

set_option maxRecDepth 100000

namespace Tokenserver

/-- `2 ^ 32`, the modulus for 32-bit machine words. -/
def w32 : Nat := 4294967296

/-- 32-bit wrapping addition. -/
def add32 (a b : Nat) : Nat := (a + b) % w32

/-- 32-bit right rotation by `n` (for `n ≤ 32`). -/
def rotr32 (n x : Nat) : Nat := ((x >>> n) + (x <<< (32 - n))) % w32

/-- Bitwise complement within 32 bits. -/
def not32 (x : Nat) : Nat := Nat.xor x (w32 - 1)

/-- SHA-256 `Ch(x, y, z) = (x ∧ y) ⊕ (¬x ∧ z)`. -/
def ch32 (x y z : Nat) : Nat := Nat.xor (Nat.land x y) (Nat.land (not32 x) z)

/-- SHA-256 `Maj(x, y, z) = (x ∧ y) ⊕ (x ∧ z) ⊕ (y ∧ z)`. -/
def maj32 (x y z : Nat) : Nat :=
  Nat.xor (Nat.xor (Nat.land x y) (Nat.land x z)) (Nat.land y z)

/-- SHA-256 `Σ₀(x) = ROTR²(x) ⊕ ROTR¹³(x) ⊕ ROTR²²(x)`. -/
def bigSigma0 (x : Nat) : Nat :=
  Nat.xor (Nat.xor (rotr32 2 x) (rotr32 13 x)) (rotr32 22 x)

/-- SHA-256 `Σ₁(x) = ROTR⁶(x) ⊕ ROTR¹¹(x) ⊕ ROTR²⁵(x)`. -/
def bigSigma1 (x : Nat) : Nat :=
  Nat.xor (Nat.xor (rotr32 6 x) (rotr32 11 x)) (rotr32 25 x)

/-- SHA-256 `σ₀(x) = ROTR⁷(x) ⊕ ROTR¹⁸(x) ⊕ SHR³(x)`. -/
def smallSigma0 (x : Nat) : Nat :=
  Nat.xor (Nat.xor (rotr32 7 x) (rotr32 18 x)) (x >>> 3)

/-- SHA-256 `σ₁(x) = ROTR¹⁷(x) ⊕ ROTR¹⁹(x) ⊕ SHR¹⁰(x)`. -/
def smallSigma1 (x : Nat) : Nat :=
  Nat.xor (Nat.xor (rotr32 17 x) (rotr32 19 x)) (x >>> 10)

/-- The 64 SHA-256 round constants (FIPS 180-4 §4.2.2), in decimal. -/
def K : List Nat :=
  [1116352408, 1899447441, 3049323471, 3921009573, 961987163, 1508970993,
   2453635748, 2870763221, 3624381080, 310598401, 607225278, 1426881987,
   1925078388, 2162078206, 2614888103, 3248222580, 3835390401, 4022224774,
   264347078, 604807628, 770255983, 1249150122, 1555081692, 1996064986,
   2554220882, 2821834349, 2952996808, 3210313671, 3336571891, 3584528711,
   113926993, 338241895, 666307205, 773529912, 1294757372, 1396182291,
   1695183700, 1986661051, 2177026350, 2456956037, 2730485921, 2820302411,
   3259730800, 3345764771, 3516065817, 3600352804, 4094571909, 275423344,
   430227734, 506948616, 659060556, 883997877, 958139571, 1322822218,
   1537002063, 1747873779, 1955562222, 2024104815, 2227730452, 2361852424,
   2428436474, 2756734187, 3204031479, 3329325298]

/-- The eight SHA-256 working variables `a`–`h`. -/
structure Hstate where
  a : Nat
  b : Nat
  c : Nat
  d : Nat
  e : Nat
  f : Nat
  g : Nat
  h : Nat

/-- The SHA-256 initial hash value (FIPS 180-4 §5.3.3), in decimal. -/
def initH : Hstate :=
  ⟨1779033703, 3144134277, 1013904242, 2773480762,
   1359893119, 2600822924, 528734635, 1541459225⟩

/-- Big-endian assembly of a byte list into 32-bit words (4 bytes each). -/
def bytesToWordsBE : List Nat → List Nat
  | b0 :: b1 :: b2 :: b3 :: rest =>
      (((b0 * 256 + b1) * 256 + b2) * 256 + b3) :: bytesToWordsBE rest
  | _ => []

/-- One extension step of the SHA-256 message schedule: append
`σ₁(W[t-2]) + W[t-7] + σ₀(W[t-15]) + W[t-16]`. -/
def scheduleStep (ws : List Nat) : List Nat :=
  let n := ws.length
  ws ++ [add32 (add32 (smallSigma1 (ws.getD (n - 2) 0)) (ws.getD (n - 7) 0))
              (add32 (smallSigma0 (ws.getD (n - 15) 0)) (ws.getD (n - 16) 0))]

/-- Iterate `scheduleStep`. -/
def scheduleFrom (ws : List Nat) : Nat → List Nat
  | 0 => ws
  | n + 1 => scheduleStep (scheduleFrom ws n)

/-- The full 64-word message schedule from the 16 words of one chunk. -/
def msgSchedule (ws : List Nat) : List Nat := scheduleFrom ws 48

/-- One SHA-256 round: update the working variables with `(Kₜ, Wₜ)`. -/
def round (s : Hstate) (kw : Nat × Nat) : Hstate :=
  let t1 := add32 s.h (add32 (bigSigma1 s.e)
    (add32 (ch32 s.e s.f s.g) (add32 kw.1 kw.2)))
  let t2 := add32 (bigSigma0 s.a) (maj32 s.a s.b s.c)
  ⟨add32 t1 t2, s.a, s.b, s.c, add32 s.d t1, s.e, s.f, s.g⟩

/-- Compress one 64-byte chunk into the running hash state. -/
def compress (h0 : Hstate) (chunk : List Nat) : Hstate :=
  let ws := msgSchedule (bytesToWordsBE chunk)
  let s := List.foldl round h0 (K.zip ws)
  ⟨add32 h0.a s.a, add32 h0.b s.b, add32 h0.c s.c, add32 h0.d s.d,
   add32 h0.e s.e, add32 h0.f s.f, add32 h0.g s.g, add32 h0.h s.h⟩

/-- `k` bytes of `n` in big-endian order (most significant first). -/
def beBytes : Nat → Nat → List Nat
  | 0, _ => []
  | k + 1, n => beBytes k (n / 256) ++ [n % 256]

/-- SHA-256 padding: a `0x80` byte, zero bytes to 56 mod 64, then the
bit length as 8 big-endian bytes. -/
def padMessage (msg : List Nat) : List Nat :=
  msg ++ 0x80 :: List.replicate ((119 - msg.length % 64) % 64) 0
      ++ beBytes 8 (msg.length * 8)

/-- Process the padded message 64 bytes at a time.  The fuel argument only
drives structural recursion; `sha256` passes fuel that is always sufficient
(one unit is spent per 64-byte chunk). -/
def processChunks : Nat → Hstate → List Nat → Hstate
  | 0, h, _ => h
  | _ + 1, h, [] => h
  | fuel + 1, h, b :: rest =>
      processChunks fuel (compress h ((b :: rest).take 64)) ((b :: rest).drop 64)

/-- The four big-endian bytes of a 32-bit word. -/
def wordBytes (w : Nat) : List Nat :=
  [w / 16777216 % 256, w / 65536 % 256, w / 256 % 256, w % 256]

/-- Serialize the final hash state into the 32 digest bytes. -/
def digestOf (s : Hstate) : List Nat :=
  wordBytes s.a ++ wordBytes s.b ++ wordBytes s.c ++ wordBytes s.d ++
  wordBytes s.e ++ wordBytes s.f ++ wordBytes s.g ++ wordBytes s.h

/-- SHA-256 of a byte string (FIPS 180-4), as 32 digest bytes.  Inputs are
reduced mod 256 to match the `u8` byte type of the source. -/
def sha256 (msg : List Nat) : List Nat :=
  let padded := padMessage (msg.map (· % 256))
  digestOf (processChunks padded.length initH padded)

/-- HMAC key normalization: hash keys longer than the 64-byte block, then
right-pad with zero bytes to exactly 64 bytes (FIPS 198-1). -/
def hmacKeyNorm (key : List Nat) : List Nat :=
  let k0 := if 64 < key.length then sha256 key else key.map (· % 256)
  k0 ++ List.replicate (64 - k0.length) 0

/-- HMAC-SHA256: `H((K₀ ⊕ opad) ++ H((K₀ ⊕ ipad) ++ msg))` (FIPS 198-1),
as 32 digest bytes. -/
def hmacSha256 (key msg : List Nat) : List Nat :=
  let k := hmacKeyNorm key
  sha256 ((k.map (fun b => Nat.xor b 0x5c)) ++
    sha256 ((k.map (fun b => Nat.xor b 0x36)) ++ msg))

/-- The ASCII code of the lowercase hex digit for `n < 16`
(`'0'`–`'9'` then `'a'`–`'f'`). -/
def hexDigitChar (n : Nat) : Nat := if n < 10 then 48 + n else 87 + n

/-- `hex::encode`: each byte becomes two lowercase hex characters,
high nibble first. -/
def hexEncode (bytes : List Nat) : List Nat :=
  bytes.flatMap (fun b => [hexDigitChar (b / 16), hexDigitChar (b % 16)])

/-- A byte is the ASCII code of a lowercase hexadecimal digit. -/
def isLowerHexDigit (c : Nat) : Prop :=
  (48 ≤ c ∧ c ≤ 57) ∨ (97 ≤ c ∧ c ≤ 102)

instance (c : Nat) : Decidable (isLowerHexDigit c) := by
  unfold isLowerHexDigit
  infer_instance

/-- SHA-256 of the empty string (FIPS test vector), checking the embedding
against the standard. -/
theorem sha256_empty_vector :
    sha256 [] =
      [227, 176, 196, 66, 152, 252, 28, 20, 154, 251, 244, 200,
       153, 111, 185, 36, 39, 174, 65, 228, 100, 155, 147, 76,
       164, 149, 153, 27, 120, 82, 184, 85] := by
  decide

/-- SHA-256 of `"abc"` (FIPS test vector). -/
theorem sha256_abc_vector :
    sha256 [97, 98, 99] =
      [186, 120, 22, 191, 143, 1, 207, 234, 65, 65, 64, 222,
       93, 174, 34, 35, 176, 3, 97, 163, 150, 23, 122, 156,
       180, 16, 255, 97, 242, 0, 21, 173] := by
  decide

/-- HMAC-SHA256 with key `"key"` and message `"msg"`, cross-checked against
an independent implementation. -/
theorem hmacSha256_vector :
    hmacSha256 [107, 101, 121] [109, 115, 103] =
      [45, 147, 203, 193, 190, 22, 123, 203, 22, 55, 164, 162,
       60, 191, 240, 26, 120, 120, 240, 197, 14, 232, 51, 149,
       78, 165, 34, 27, 177, 184, 198, 40] := by
  decide

/-- The ASCII code of position `n` of the URL-safe base64 alphabet
(`A`–`Z`, `a`–`z`, `0`–`9`, `-`, `_`). -/
def b64Char (n : Nat) : Nat :=
  if n < 26 then 65 + n
  else if n < 52 then 97 + (n - 26)
  else if n < 62 then 48 + (n - 52)
  else if n = 62 then 45
  else 95

/-- `base64::encode_config(_, base64::URL_SAFE_NO_PAD)`: three input bytes
become four alphabet characters; a final group of one or two bytes becomes
two or three characters and no `=` padding is emitted. -/
def base64UrlNoPad : List Nat → List Nat
  | [] => []
  | [b0] => [b64Char (b0 % 256 / 4), b64Char (b0 % 4 * 16)]
  | [b0, b1] =>
      [b64Char (b0 % 256 / 4), b64Char (b0 % 4 * 16 + b1 % 256 / 16),
       b64Char (b1 % 16 * 4)]
  | b0 :: b1 :: b2 :: rest =>
      b64Char (b0 % 256 / 4) :: b64Char (b0 % 4 * 16 + b1 % 256 / 16) ::
      b64Char (b1 % 16 * 4 + b2 % 256 / 64) :: b64Char (b2 % 64) ::
      base64UrlNoPad rest

/-- Decimal digit characters of `n`, most significant first; fuel-driven
structural recursion (`decDigits` always passes sufficient fuel). -/
def decDigitsAux : Nat → Nat → List Nat
  | 0, _ => []
  | fuel + 1, n =>
      if n < 10 then [48 + n]
      else decDigitsAux fuel (n / 10) ++ [48 + n % 10]

/-- The decimal digit characters of `n` (ASCII, most significant first),
as produced by Rust `Display` for unsigned integers. -/
def decDigits (n : Nat) : List Nat := decDigitsAux (n + 1) n

/-- Rust `format!` with the `{:013}` specifier: the decimal digits of `n`,
left-padded with `'0'` to a minimum width of 13. -/
def zeroPad13 (n : Nat) : List Nat :=
  List.replicate (13 - (decDigits n).length) 48 ++ decDigits n

/-- Rust `Display` for `i64`: optional `'-'` sign then decimal digits. -/
def intDecBytes (i : Int) : List Nat :=
  if i < 0 then 45 :: decDigits i.natAbs else decDigits i.natAbs

/-- `tokenserver_user.keys_changed_at.unwrap_or(tokenserver_request.generation)`
(handlers.rs lines 77–79): the numeric prefix of the key-id. -/
def kidCounter (keys_changed_at : Option Nat) (generation : Nat) : Nat :=
  keys_changed_at.getD generation

/-- The `fxa_kid` block (handlers.rs lines 71–82):
`format!("{:013}-{:}", keys_changed_at.unwrap_or(generation), client_state_b64)`
with `client_state_b64` the URL-safe unpadded base64 of `client_state`.
Byte 45 is the literal `'-'` separator. -/
def fxaKid (keys_changed_at : Option Nat) (generation : Nat)
    (client_state : List Nat) : List Nat :=
  zeroPad13 (kidCounter keys_changed_at generation) ++
    45 :: base64UrlNoPad client_state

/-- `Hmac::<Sha256>::new_from_slice(hmac_key)` (handlers.rs line 132).
HMAC accepts key material of any length (short keys are padded, long keys
hashed), so the `InvalidKeyLength` error of the `hmac` crate is never
produced: every byte string is structurally valid key material. -/
def hmacNewFromSlice (key : List Nat) : Except String (List Nat) :=
  Except.ok key

/-- `fxa_metrics_hash` (handlers.rs lines 131–138): HMAC-SHA256 of the
identifier under `hmac_key`, hex-encoded in full (64 lowercase hex chars). -/
def fxa_metrics_hash (fxa_uid : List Nat) (hmac_key : List Nat) :
    Except String (List Nat) :=
  match hmacNewFromSlice hmac_key with
  | Except.error e => Except.error e
  | Except.ok k => Except.ok (hexEncode (hmacSha256 k fxa_uid))

/-- `hash_device_id` (handlers.rs lines 140–146): the first 32 hex characters
of `fxa_metrics_hash(fxa_uid ++ device, hmac_key)`. -/
def hash_device_id (fxa_uid device : List Nat) (hmac_key : List Nat) :
    Except String (List Nat) :=
  match fxa_metrics_hash (fxa_uid ++ device) hmac_key with
  | Except.error e => Except.error e
  | Except.ok h => Except.ok (h.take 32)

/-- The bytes of the fixed device label `"none"` (handlers.rs line 67). -/
def noneLabel : List Nat := [110, 111, 110, 101]

/-- The bytes of the literal `"/1.5/"` in the `api_endpoint` format string
(handlers.rs line 117). -/
def apiSep : List Nat := [47, 49, 46, 53, 47]

/-- A Rust `std::time::Duration`: whole seconds and nanoseconds, the
nanosecond component kept below `10⁹`. -/
def durationAdd (d1 d2 : Nat × Nat) : Nat × Nat :=
  if 1000000000 ≤ d1.2 + d2.2 then (d1.1 + d2.1 + 1, d1.2 + d2.2 - 1000000000)
  else (d1.1 + d2.1, d1.2 + d2.2)

/-- `Duration::as_secs`: the whole-second component. -/
def durationAsSecs (d : Nat × Nat) : Nat := d.1

/-- The `expires` computation given the already-unwrapped duration since the
epoch (handlers.rs lines 95–101): `(current_time + Duration::new(duration, 0))
.as_secs()`. -/
def expiresOf (current_time : Nat × Nat) (duration : Nat) : Nat :=
  durationAsSecs (durationAdd current_time (duration, 0))

/-- `SystemTime::now().duration_since(UNIX_EPOCH)` with the system clock
modelled as `t` nanoseconds since the Unix epoch (negative = before the
epoch): `Err` (here `none`) exactly when the clock reads before the epoch. -/
def durationSinceUnixEpoch (t : Int) : Option (Nat × Nat) :=
  if t < 0 then none
  else some (t.toNat / 1000000000, t.toNat % 1000000000)

/-- The full `expires` block (handlers.rs lines 95–101) including the
`.unwrap()` on line 97: `none` models the panic of `unwrap` when
`duration_since` returns `Err`. -/
def expiresComputation (t : Int) (duration : Nat) : Option Nat :=
  match durationSinceUnixEpoch t with
  | none => none
  | some current_time => some (expiresOf current_time duration)

/-- The typed inbound request produced by the extraction layer
(identifier bytes, generation number, requested duration in seconds). -/
structure TokenserverRequest where
  fxa_uid : List Nat
  generation : Nat
  duration : Nat

/-- The node-assignment record returned by the store for the user. -/
structure TokenserverUser where
  uid : Int
  node : List Nat
  client_state : List Nat
  keys_changed_at : Option Nat

/-- The credential plaintext handed to the minter
(`MakeTokenPlaintext`, constructed in handlers.rs lines 103–111). -/
structure MakeTokenPlaintext where
  node : List Nat
  fxa_kid : List Nat
  fxa_uid : List Nat
  hashed_device_id : List Nat
  hashed_fxa_uid : List Nat
  expires : Nat
  uid : Int

/-- The response payload (`TokenserverResult`, handlers.rs lines 26–34). -/
structure TokenserverResult where
  id : List Nat
  key : List Nat
  uid : Int
  api_endpoint : List Nat
  duration : Nat
  hashed_fxa_uid : List Nat

/-- The pure core of `get_tokenserver_result` (handlers.rs lines 36–129),
after the app-state/db lookups have produced `tokenserver_user` and the
secrets, and with the wall-clock `duration_since` already unwrapped to
`now` (the panic on a pre-epoch clock is analysed via
`expiresComputation`).  `mint` stands for
`Tokenlib::get_token_and_derived_secret`, whose implementation lives
outside this file's sources. -/
def get_tokenserver_result
    (mint : MakeTokenPlaintext → List Nat → Except String (List Nat × List Nat))
    (tokenserver_request : TokenserverRequest)
    (tokenserver_user : TokenserverUser)
    (fxa_metrics_hash_secret : List Nat) (shared_secret : List Nat)
    (now : Nat × Nat) : Except String TokenserverResult :=
  match fxa_metrics_hash tokenserver_request.fxa_uid fxa_metrics_hash_secret with
  | Except.error e => Except.error e
  | Except.ok hashed_fxa_uid_full =>
    let hashed_fxa_uid := hashed_fxa_uid_full.take 32
    match hash_device_id hashed_fxa_uid noneLabel fxa_metrics_hash_secret with
    | Except.error e => Except.error e
    | Except.ok hashed_device_id =>
      let fxa_kid := fxaKid tokenserver_user.keys_changed_at
        tokenserver_request.generation tokenserver_user.client_state
      let expires := expiresOf now tokenserver_request.duration
      let make_token_plaintext : MakeTokenPlaintext :=
        { node := tokenserver_user.node
          fxa_kid := fxa_kid
          fxa_uid := tokenserver_request.fxa_uid
          hashed_device_id := hashed_device_id
          hashed_fxa_uid := hashed_fxa_uid
          expires := expires
          uid := tokenserver_user.uid }
      match mint make_token_plaintext shared_secret with
      | Except.error e => Except.error e
      | Except.ok (token, derived_secret) =>
        Except.ok
          { id := token
            key := derived_secret
            uid := tokenserver_user.uid
            api_endpoint := tokenserver_user.node ++ apiSep ++
              intDecBytes tokenserver_user.uid
            duration := tokenserver_request.duration
            hashed_fxa_uid := hashed_fxa_uid }

/-- The credential plaintext as a pure function of the handler inputs;
`get_tokenserver_result` passes exactly this record to the minter
(established by the response-assembly theorem below). -/
def makeTokenPlaintext (req : TokenserverRequest) (user : TokenserverUser)
    (ms : List Nat) (now : Nat × Nat) : MakeTokenPlaintext :=
  { node := user.node
    fxa_kid := fxaKid user.keys_changed_at req.generation user.client_state
    fxa_uid := req.fxa_uid
    hashed_device_id :=
      (hexEncode (hmacSha256 ms
        ((hexEncode (hmacSha256 ms req.fxa_uid)).take 32 ++ noneLabel))).take 32
    hashed_fxa_uid := (hexEncode (hmacSha256 ms req.fxa_uid)).take 32
    expires := expiresOf now req.duration
    uid := user.uid }

lemma hexEncode_length (l : List Nat) : (hexEncode l).length = 2 * l.length := by
  induction l with
  | nil => rfl
  | cons b t ih => simp [hexEncode] at ih ⊢; omega

lemma hexDigitChar_lower {n : Nat} (h : n < 16) :
    isLowerHexDigit (hexDigitChar n) := by
  unfold isLowerHexDigit hexDigitChar
  split <;> omega

lemma hexEncode_mem_lower {l : List Nat} (hb : ∀ b ∈ l, b < 256) :
    ∀ c ∈ hexEncode l, isLowerHexDigit c := by
  intro c hc
  unfold hexEncode at hc
  simp only [List.mem_flatMap, List.mem_cons, List.not_mem_nil, or_false] at hc
  obtain ⟨b, hbl, hcb⟩ := hc
  have h256 := hb b hbl
  rcases hcb with rfl | rfl
  · exact hexDigitChar_lower (by omega)
  · exact hexDigitChar_lower (by omega)

lemma wordBytes_mem_lt {w b : Nat} (h : b ∈ wordBytes w) : b < 256 := by
  unfold wordBytes at h
  simp only [List.mem_cons, List.not_mem_nil, or_false] at h
  rcases h with rfl | rfl | rfl | rfl <;> omega

lemma digestOf_length (s : Hstate) : (digestOf s).length = 32 := rfl

lemma digestOf_mem_lt {s : Hstate} : ∀ b ∈ digestOf s, b < 256 := by
  intro b h
  simp only [digestOf, List.mem_append, or_assoc] at h
  rcases h with h | h | h | h | h | h | h | h <;> exact wordBytes_mem_lt h

lemma sha256_length (msg : List Nat) : (sha256 msg).length = 32 := by
  unfold sha256
  exact digestOf_length _

lemma sha256_mem_lt {msg : List Nat} : ∀ b ∈ sha256 msg, b < 256 := by
  unfold sha256
  exact digestOf_mem_lt

lemma hmacSha256_length (key msg : List Nat) :
    (hmacSha256 key msg).length = 32 := by
  unfold hmacSha256
  exact sha256_length _

lemma hmacSha256_mem_lt {key msg : List Nat} :
    ∀ b ∈ hmacSha256 key msg, b < 256 := by
  unfold hmacSha256
  exact sha256_mem_lt

lemma fullDigestHex_length (key msg : List Nat) :
    (hexEncode (hmacSha256 key msg)).length = 64 := by
  rw [hexEncode_length, hmacSha256_length]

lemma fullDigestHex_lower (key msg : List Nat) :
    ∀ c ∈ hexEncode (hmacSha256 key msg), isLowerHexDigit c :=
  hexEncode_mem_lower (fun _ hb => hmacSha256_mem_lt _ hb)

lemma decDigitsAux_mem :
    ∀ (fuel n c : Nat), c ∈ decDigitsAux fuel n → 48 ≤ c ∧ c ≤ 57 := by
  intro fuel
  induction fuel with
  | zero => intro n c h; simp [decDigitsAux] at h
  | succ f ih =>
    intro n c h
    unfold decDigitsAux at h
    by_cases hn : n < 10
    · simp [hn] at h; omega
    · simp only [hn, if_false, List.mem_append, List.mem_cons,
        List.not_mem_nil, or_false] at h
      rcases h with h | h
      · exact ih _ _ h
      · omega

lemma decDigits_mem {n c : Nat} (h : c ∈ decDigits n) : 48 ≤ c ∧ c ≤ 57 :=
  decDigitsAux_mem _ _ _ h

lemma decDigitsAux_length_le :
    ∀ (fuel n k : Nat), n < fuel → 1 ≤ k → n < 10 ^ k →
      (decDigitsAux fuel n).length ≤ k := by
  intro fuel
  induction fuel with
  | zero => intro n k h; omega
  | succ f ih =>
    intro n k hf hk hpow
    unfold decDigitsAux
    by_cases hn : n < 10
    · simp [hn]; omega
    · simp only [hn, if_false, List.length_append, List.length_cons,
        List.length_nil]
      have hk2 : 2 ≤ k := by
        rcases Nat.eq_or_lt_of_le hk with h1 | h1
        · exfalso; rw [← h1] at hpow; simp at hpow; omega
        · omega
      have h1 : n / 10 < f := by omega
      have h2 : n / 10 < 10 ^ (k - 1) := by
        have hsplit : 10 ^ k = 10 ^ (k - 1) * 10 := by
          rw [← pow_succ]
          congr 1
          omega
        rw [hsplit] at hpow
        exact (Nat.div_lt_iff_lt_mul (by norm_num)).2 hpow
      have := ih (n / 10) (k - 1) h1 (by omega) h2
      omega

lemma decDigits_length_le13 {n : Nat} (h : n < 10 ^ 13) :
    (decDigits n).length ≤ 13 :=
  decDigitsAux_length_le (n + 1) n 13 (by omega) (by omega) h

lemma zeroPad13_length {n : Nat} (h : n < 10 ^ 13) :
    (zeroPad13 n).length = 13 := by
  unfold zeroPad13
  rw [List.length_append, List.length_replicate]
  have := decDigits_length_le13 h
  omega

lemma zeroPad13_mem {n c : Nat} (h : c ∈ zeroPad13 n) : 48 ≤ c ∧ c ≤ 57 := by
  unfold zeroPad13 at h
  rcases List.mem_append.1 h with h1 | h1
  · have := List.eq_of_mem_replicate h1
    omega
  · exact decDigits_mem h1

lemma takeWhile_append_stop (p : Nat → Bool) :
    ∀ (l1 : List Nat) (x : Nat) (l2 : List Nat),
      (∀ c ∈ l1, p c = true) → p x = false →
      ((l1 ++ x :: l2).takeWhile p) = l1 := by
  intro l1
  induction l1 with
  | nil =>
    intro x l2 _ hx
    simp [List.takeWhile_cons, hx]
  | cons a t ih =>
    intro x l2 h hx
    have ha : p a = true := h a (List.mem_cons_self a t)
    simp [List.takeWhile_cons, ha,
      ih x l2 (fun c hc => h c (List.mem_cons_of_mem a hc)) hx]

lemma b64Char_ne_61 (n : Nat) : b64Char n ≠ 61 := by
  unfold b64Char
  split_ifs <;> omega

lemma base64UrlNoPad_ne_61 :
    ∀ (l : List Nat), ∀ c ∈ base64UrlNoPad l, c ≠ 61 := by
  intro l
  induction l using base64UrlNoPad.induct with
  | case1 =>
    intro c h
    simp [base64UrlNoPad] at h
  | case2 b0 =>
    intro c h
    simp only [base64UrlNoPad, List.mem_cons, List.not_mem_nil, or_false] at h
    rcases h with rfl | rfl <;> exact b64Char_ne_61 _
  | case3 b0 b1 =>
    intro c h
    simp only [base64UrlNoPad, List.mem_cons, List.not_mem_nil, or_false] at h
    rcases h with rfl | rfl | rfl <;> exact b64Char_ne_61 _
  | case4 b0 b1 b2 rest ih =>
    intro c h
    simp only [base64UrlNoPad, List.mem_cons] at h
    rcases h with rfl | rfl | rfl | rfl | h
    · exact b64Char_ne_61 _
    · exact b64Char_ne_61 _
    · exact b64Char_ne_61 _
    · exact b64Char_ne_61 _
    · exact ih c h

/-- Claim C1 (as stated, refuted): the claim asserts that with
`keys_changed_at = 2` and `generation = 7` the key-id epoch counter resolves
to `max(2, 7) = 7`; the code computes `keys_changed_at.unwrap_or(generation)`,
which resolves to `2` there. -/
theorem c1_kid_counter_counterexample :
    kidCounter (some 2) 7 ≠ Nat.max 2 7 := by
  decide

/-- Claim C1 (amended): the key-id epoch counter equals `keys_changed_at`
whenever it is present (not the maximum with the caller generation), and
equals the caller generation when it is absent. -/
theorem c1_kid_counter_unwrap_or (kca g : Nat) :
    kidCounter (some kca) g = kca ∧ kidCounter none g = g :=
  ⟨rfl, rfl⟩

/-- Claim C2 (as stated, refuted): the claim asserts the portion of the
key-id before the hyphen is always exactly 13 digits; for the in-range
64-bit counter `10 ^ 13` the zero-pad-to-13 format emits 14 digits. -/
theorem c2_kid_format_counterexample :
    ((fxaKid none (10 ^ 13) []).takeWhile (fun c => c != 45)).length ≠ 13 := by
  decide

/-- Claim C2 (amended): the key-id is the counter zero-padded to a minimum
width of 13 decimal digits, a literal hyphen (byte 45), then the URL-safe
unpadded base64 of the client state; the digit block — the portion before
the first hyphen — is exactly 13 digits whenever the counter is below
`10 ^ 13`, and the base64 tail contains no `'='` padding byte (61). -/
theorem c2_kid_format (kca : Option Nat) (g : Nat) (cs : List Nat)
    (h : kidCounter kca g < 10 ^ 13) :
    fxaKid kca g cs = zeroPad13 (kidCounter kca g) ++ 45 :: base64UrlNoPad cs ∧
    (zeroPad13 (kidCounter kca g)).length = 13 ∧
    (∀ c ∈ zeroPad13 (kidCounter kca g), 48 ≤ c ∧ c ≤ 57) ∧
    (fxaKid kca g cs).takeWhile (fun c => c != 45) =
      zeroPad13 (kidCounter kca g) ∧
    (∀ c ∈ base64UrlNoPad cs, c ≠ 61) := by
  refine ⟨rfl, zeroPad13_length h, fun c hc => zeroPad13_mem hc, ?_,
    base64UrlNoPad_ne_61 cs⟩
  unfold fxaKid
  apply takeWhile_append_stop
  · intro c hc
    have := zeroPad13_mem hc
    simp only [bne_iff_ne, ne_eq]
    omega
  · decide

theorem c2_kid_format_witness :
    kidCounter (some 5) 3 < 10 ^ 13 ∧
    (fxaKid (some 5) 3 [1, 2] =
        zeroPad13 (kidCounter (some 5) 3) ++ 45 :: base64UrlNoPad [1, 2] ∧
      (zeroPad13 (kidCounter (some 5) 3)).length = 13 ∧
      (∀ c ∈ zeroPad13 (kidCounter (some 5) 3), 48 ≤ c ∧ c ≤ 57) ∧
      (fxaKid (some 5) 3 [1, 2]).takeWhile (fun c => c != 45) =
        zeroPad13 (kidCounter (some 5) 3) ∧
      (∀ c ∈ base64UrlNoPad [1, 2], c ≠ 61)) :=
  ⟨by decide, c2_kid_format (some 5) 3 [1, 2] (by decide)⟩

/-- Claim C3: `fxa_metrics_hash` returns the lowercase hexadecimal encoding
of the full 256-bit HMAC-SHA256 digest of the message under the key — a
64-character lowercase hex string. -/
theorem c3_full_digest_hex (msg key : List Nat) :
    fxa_metrics_hash msg key =
      Except.ok (hexEncode (hmacSha256 key msg)) ∧
    (hexEncode (hmacSha256 key msg)).length = 64 ∧
    (∀ c ∈ hexEncode (hmacSha256 key msg), isLowerHexDigit c) :=
  ⟨rfl, fullDigestHex_length key msg, fullDigestHex_lower key msg⟩

/-- Claim C4: the account pseudonym (the 32-character truncation of
`fxa_metrics_hash`) and the device pseudonym (`hash_device_id`) are each
exactly 32 lowercase hex characters and are prefixes of the corresponding
full 64-character digests. -/
theorem c4_pseudonym_truncation (uid key p dev : List Nat) :
    (∃ full, fxa_metrics_hash uid key = Except.ok full ∧
      full.length = 64 ∧ (full.take 32).length = 32 ∧
      (∀ c ∈ full.take 32, isLowerHexDigit c) ∧
      full.take 32 ++ full.drop 32 = full) ∧
    (∃ dfull d, fxa_metrics_hash (p ++ dev) key = Except.ok dfull ∧
      hash_device_id p dev key = Except.ok d ∧
      dfull.length = 64 ∧ d.length = 32 ∧
      (∀ c ∈ d, isLowerHexDigit c) ∧
      d ++ dfull.drop 32 = dfull) := by
  constructor
  · refine ⟨hexEncode (hmacSha256 key uid), rfl, fullDigestHex_length key uid,
      ?_, ?_, List.take_append_drop 32 _⟩
    · rw [List.length_take, fullDigestHex_length]
      omega
    · intro c hc
      exact fullDigestHex_lower key uid c (List.mem_of_mem_take hc)
  · refine ⟨hexEncode (hmacSha256 key (p ++ dev)),
      (hexEncode (hmacSha256 key (p ++ dev))).take 32, rfl, rfl,
      fullDigestHex_length key (p ++ dev), ?_, ?_,
      List.take_append_drop 32 _⟩
    · rw [List.length_take, fullDigestHex_length]
      omega
    · intro c hc
      exact fullDigestHex_lower key (p ++ dev) c (List.mem_of_mem_take hc)

/-- Claim C5: the `expires` field of the credential plaintext is the
wall-clock time plus the requested duration, in whole epoch seconds:
with `now = (T, nanos)` and any duration `d`, it equals `T + d`. -/
theorem c5_expiry (req : TokenserverRequest) (user : TokenserverUser)
    (ms : List Nat) (nowS nowN : Nat) (h : nowN < 1000000000) :
    (makeTokenPlaintext req user ms (nowS, nowN)).expires =
      nowS + req.duration := by
  show expiresOf (nowS, nowN) req.duration = nowS + req.duration
  unfold expiresOf durationAdd durationAsSecs
  rw [if_neg (by simp; omega)]

theorem c5_expiry_witness :
    5 < 1000000000 ∧
    (makeTokenPlaintext ⟨[], 0, 3600⟩ ⟨0, [], [], none⟩ []
      (1000, 5)).expires = 1000 + 3600 :=
  ⟨by decide, c5_expiry ⟨[], 0, 3600⟩ ⟨0, [], [], none⟩ [] 1000 5 (by decide)⟩

/-- Claim C6: the handler's response carries the minted token as `id`, the
derived secret as `key`, the node-scoped user id as `uid`, the endpoint
`{node}/1.5/{uid}`, the caller-supplied duration unchanged, and the
32-character account pseudonym — and the record handed to the minter is
exactly `makeTokenPlaintext`. -/
theorem c6_response_assembly
    (mint : MakeTokenPlaintext → List Nat → Except String (List Nat × List Nat))
    (req : TokenserverRequest) (user : TokenserverUser)
    (ms ss : List Nat) (now : Nat × Nat) :
    get_tokenserver_result mint req user ms ss now =
      match mint (makeTokenPlaintext req user ms now) ss with
      | Except.error e => Except.error e
      | Except.ok (token, derived_secret) =>
          Except.ok
            { id := token
              key := derived_secret
              uid := user.uid
              api_endpoint := user.node ++ apiSep ++ intDecBytes user.uid
              duration := req.duration
              hashed_fxa_uid := (hexEncode (hmacSha256 ms req.fxa_uid)).take 32 } :=
  rfl

/-- Claim C7: `fxa_metrics_hash` is a pure, deterministic function — equal
messages and equal keys give identical outputs on repeated invocation. -/
theorem c7_deterministic (m k m' k' : List Nat) (hm : m = m') (hk : k = k') :
    fxa_metrics_hash m k = fxa_metrics_hash m' k' := by
  rw [hm, hk]

theorem c7_deterministic_witness :
    [1] = ([1] : List Nat) ∧ [2] = ([2] : List Nat) ∧
    fxa_metrics_hash [1] [2] = fxa_metrics_hash [1] [2] :=
  ⟨rfl, rfl, c7_deterministic [1] [2] [1] [2] rfl rfl⟩

/-- Claim C8: the HMAC primitive accepts every key (there is no
structurally invalid key material for HMAC), so `fxa_metrics_hash` returns
`Ok` for every message and key — its error branch is unreachable. -/
theorem c8_error_branch_unreachable (msg key : List Nat) :
    hmacNewFromSlice key = Except.ok key ∧
    ∃ s, fxa_metrics_hash msg key = Except.ok s :=
  ⟨rfl, hexEncode (hmacSha256 key msg), rfl⟩

/-- Claim C9 (as stated, refuted): the claim asserts the expiry computation
never panics; with the system clock one nanosecond before the Unix epoch,
`duration_since(UNIX_EPOCH)` returns `Err` and the `.unwrap()` on line 97
panics (modelled by `none`). -/
theorem c9_expiry_panic_counterexample :
    expiresComputation (-1) 3600 = none :=
  rfl

/-- Claim C9 (amended): if the clock reads before the Unix epoch the expiry
computation panics via `.unwrap()` (it does not fail with an error); when
the clock reads at or after the epoch it does not panic and yields the
whole-second clock reading plus the duration. -/
theorem c9_expiry_panic (t : Int) (dur : Nat) :
    (t < 0 → expiresComputation t dur = none) ∧
    (0 ≤ t → expiresComputation t dur =
      some (t.toNat / 1000000000 + dur)) := by
  constructor
  · intro h
    unfold expiresComputation durationSinceUnixEpoch
    rw [if_pos h]
  · intro h
    unfold expiresComputation durationSinceUnixEpoch
    rw [if_neg (by omega)]
    show some (expiresOf (t.toNat / 1000000000, t.toNat % 1000000000) dur) = _
    unfold expiresOf durationAdd durationAsSecs
    rw [if_neg (by simp; omega)]

theorem c9_expiry_panic_witness :
    ((-5 : Int) < 0 ∧ expiresComputation (-5) 7 = none) ∧
    ((0 : Int) ≤ 12 ∧
      expiresComputation 12 7 = some (Int.toNat 12 / 1000000000 + 7)) :=
  ⟨⟨by decide, (c9_expiry_panic (-5) 7).1 (by decide)⟩,
   ⟨by decide, (c9_expiry_panic 12 7).2 (by decide)⟩⟩

/-- Claim C10: the device pseudonym is computed with the fixed literal
label `"none"` — it is the 32-character truncation of the digest of the
account-pseudonym prefix concatenated with `"none"` — so two requests whose
account-pseudonym prefixes agree (under the same metrics key) always get
equal device pseudonyms. -/
theorem c10_device_label_none (req1 req2 : TokenserverRequest)
    (user1 user2 : TokenserverUser) (ms : List Nat) (now1 now2 : Nat × Nat)
    (h : (makeTokenPlaintext req1 user1 ms now1).hashed_fxa_uid =
         (makeTokenPlaintext req2 user2 ms now2).hashed_fxa_uid) :
    (makeTokenPlaintext req1 user1 ms now1).hashed_device_id =
      (hexEncode (hmacSha256 ms
        ((makeTokenPlaintext req1 user1 ms now1).hashed_fxa_uid ++
          noneLabel))).take 32 ∧
    (makeTokenPlaintext req1 user1 ms now1).hashed_device_id =
      (makeTokenPlaintext req2 user2 ms now2).hashed_device_id := by
  refine ⟨rfl, ?_⟩
  simp only [makeTokenPlaintext] at h ⊢
  rw [h]

theorem c10_device_label_none_witness :
    (makeTokenPlaintext ⟨[], 0, 0⟩ ⟨0, [], [], none⟩ [3] (0, 0)).hashed_fxa_uid =
      (makeTokenPlaintext ⟨[], 0, 0⟩ ⟨0, [], [], none⟩ [3] (0, 0)).hashed_fxa_uid ∧
    ((makeTokenPlaintext ⟨[], 0, 0⟩ ⟨0, [], [], none⟩ [3] (0, 0)).hashed_device_id =
      (hexEncode (hmacSha256 [3]
        ((makeTokenPlaintext ⟨[], 0, 0⟩ ⟨0, [], [], none⟩ [3]
          (0, 0)).hashed_fxa_uid ++ noneLabel))).take 32 ∧
    (makeTokenPlaintext ⟨[], 0, 0⟩ ⟨0, [], [], none⟩ [3] (0, 0)).hashed_device_id =
      (makeTokenPlaintext ⟨[], 0, 0⟩ ⟨0, [], [], none⟩ [3] (0, 0)).hashed_device_id) :=
  ⟨rfl, c10_device_label_none ⟨[], 0, 0⟩ ⟨[], 0, 0⟩ ⟨0, [], [], none⟩
    ⟨0, [], [], none⟩ [3] (0, 0) (0, 0) rfl⟩

end Tokenserver
